import Mathlib

/-!
Verification development for the outbound voice-agent call controller
(`src/agent.py`).  The controller's `entrypoint` and its registered
shutdown callback `_shutdown_tasks` are shallowly embedded as functions
producing a trace (a list of events), parameterized by the job
configuration and by the outcomes of the external services (recording
backend, telephony backend, database, stop-egress call).  All behaviour
is translated from the source; the dispatch of the registered shutdown
callback (run once when the job terminates, after the session ends) is
the hosting framework's documented contract, modelled by appending one
run of the callback trace per registration after a session-end marker.
-/

namespace VoiceAgent

/-- A parsed job-metadata dictionary (the keys `agent.py` reads, plus a
flag recording whether the dictionary carries any other keys, which only
affects its Python truthiness when building the archived metadata). -/
structure DialInfo where
  phone_number : Option String
  meeting_pin : Option String
  extra : Bool
deriving DecidableEq

/-- `ctx.job.metadata`: absent/empty, invalid JSON, or a parsed dict. -/
inductive JobMetadata where
  | absent
  | invalid
  | valid (d : DialInfo)
deriving DecidableEq

/-- Parameters of one job: room name, job id, raw metadata. -/
structure Config where
  roomName : String
  jobId : Option String
  metadata : JobMetadata
deriving DecidableEq

/-- `dial_info` after the metadata-parsing block (agent.py lines
187-199): the parsed dict when the metadata is present and valid JSON,
otherwise the empty dict. -/
def dialInfoOf : JobMetadata → DialInfo
  | .absent => ⟨none, none, false⟩
  | .invalid => ⟨none, none, false⟩
  | .valid d => d

/-- `phone_number = dial_info.get("phone_number", "unknown")`
(agent.py line 201); also used as the participant identity. -/
def phoneOf (cfg : Config) : String :=
  ((dialInfoOf cfg.metadata).phone_number).getD "unknown"

/-- `GOOGLE_MEET_PIN = f"{dial_info.get('meeting_pin')}" if
dial_info.get('meeting_pin') else "0000#"` (agent.py line 395): a Python
truthiness test, so a present-but-empty pin also falls back to the
default sentinel. -/
def pinUsed (cfg : Config) : String :=
  match (dialInfoOf cfg.metadata).meeting_pin with
  | some p => if p = "" then "0000#" else p
  | none => "0000#"

/-- The `dtmf_map` dictionary (agent.py lines 403-416). -/
def dtmfTable : List (Char × Nat) :=
  [('0', 0), ('1', 1), ('2', 2), ('3', 3), ('4', 4), ('5', 5),
   ('6', 6), ('7', 7), ('8', 8), ('9', 9), ('*', 10), ('#', 11)]

/-- `dtmf_map.get(digit)`: the tone code of a symbol, if recognized. -/
def dtmfMap (c : Char) : Option Nat :=
  dtmfTable.lookup c

/-- The serialized transcript column: either the session history, or the
placeholder error payload substituted when reading the history raised
(agent.py lines 245-249). -/
inductive Transcript where
  | history (h : String)
  | placeholder (err : String)
deriving DecidableEq

/-- The `meta` JSON column (agent.py lines 274-283): job id and/or the
dial-info dict, or NULL when both are missing/empty. -/
structure MetaPayload where
  job_id : Option String
  dial_info : Option DialInfo
deriving DecidableEq

/-- Python truthiness of the parsed dict: an empty dict is falsy. -/
def DialInfo.isEmptyDict (d : DialInfo) : Bool :=
  d.phone_number = none && d.meeting_pin = none && !d.extra

/-- One row of the `interviews` table, as assembled by
`_shutdown_tasks` (agent.py lines 300-319). -/
structure TranscriptRow where
  room_name : Option String
  participant_identity : Option String
  egress_id : Option String
  started_at : Option Nat
  ended_at : Option Nat
  transcript : Transcript
  meta : Option MetaPayload
deriving DecidableEq

/-- Observable events of one job execution. -/
inductive Event where
  | connect
  | egressStartAttempt
  | egressStarted (id : Option String)
  | logEgressFailure
  | registerShutdownHook
  | sessionStartLaunched
  | dialRequest (phone : String)
  | awaitSessionStarted
  | participantJoined (identity : String)
  | settleDelay
  | dtmfTone (code : Nat) (digit : Char)
  | toneGap
  | shortPause
  | sayOpening
  | logDialTwirpError
  | logUnexpectedError
  | sessionEnded
  | shutdownHookStart
  | historyPlaceholder
  | dbConnected
  | logDbConnectFailure
  | rowInserted (row : TranscriptRow)
  | logInsertFailure (row : TranscriptRow)
  | connReleased
  | stopEgressCall (id : String)
  | stopOk
  | stopIgnoredAlreadyFailed
  | logStopUnexpectedTwirp
  | logStopException
  | closeClient
deriving DecidableEq

/-- Result of `start_room_composite_egress`: an exception, or success
carrying the value of the `getattr(res, "egress_id", None) or
getattr(res, "id", None)` chain (agent.py line 177), which may itself be
absent. -/
inductive EgressOutcome where
  | failed
  | ok (id : Option String)
deriving DecidableEq

/-- Result of `create_sip_participant` (agent.py lines 380-446):
answered, a structured `TwirpError`, or any other exception. -/
inductive DialOutcome where
  | answered
  | twirpError
  | otherError
deriving DecidableEq

/-- Result of `stop_egress` (agent.py lines 337-347): success, a
`TwirpError` meaning already stopped/failed (`failed_precondition`,
`EGRESS_FAILED`, `cannot be stopped`), an unexpected `TwirpError`, or
any other exception. -/
inductive StopOutcome where
  | ok
  | alreadyStopped
  | unexpectedTwirp
  | exceptionErr
deriving DecidableEq

/-- Outcomes of every external interaction of one execution. -/
structure Outcomes where
  egress : EgressOutcome
  dial : DialOutcome
  joinOk : Bool
  historyOk : Option String
  startedAtAttr : Option Nat
  now : Nat
  dbConnect : Bool
  dbInsert : Bool
  stop : StopOutcome
deriving DecidableEq

/-- The `egress_id` variable after the recording-start block
(agent.py lines 154-182): set only on success, and even then possibly
absent. -/
def egressIdOf (o : Outcomes) : Option String :=
  match o.egress with
  | .failed => none
  | .ok id => id

/-- Python truthiness of an optional string (`if egress_id:`). -/
def optTruthy : Option String → Bool
  | some s => s ≠ ""
  | none => false

/-- The DTMF transmission loop (agent.py lines 418-423): for each
symbol in order, look up its code; if recognized, publish the tone then
sleep the fixed 0.5 inter-tone gap; otherwise emit nothing at all. -/
def sendPinEvents (pin : List Char) : List Event :=
  pin.flatMap fun d =>
    match dtmfMap d with
    | some code => [Event.dtmfTone code d, Event.toneGap]
    | none => []

/-- Events of `entrypoint` up to but not including the dial request
(agent.py lines 144-376): connect, attempt the composite egress (before
the metadata is even parsed), log on egress failure, register the
shutdown callback, launch the session-start task. -/
def preDial (o : Outcomes) : List Event :=
  [Event.connect, Event.egressStartAttempt]
  ++ (match o.egress with
      | .ok id => [Event.egressStarted id]
      | .failed => [Event.logEgressFailure])
  ++ [Event.registerShutdownHook, Event.sessionStartLaunched]

/-- Events of the happy path after the participant joined (agent.py
lines 393-435): record the join, sleep the 12-unit settle delay, send
the PIN digit-by-digit, short pause, speak the opening line. -/
def joinBranch (cfg : Config) : List Event :=
  [Event.participantJoined (phoneOf cfg), Event.settleDelay]
  ++ sendPinEvents (pinUsed cfg).toList
  ++ [Event.shortPause, Event.sayOpening]

/-- Events of `entrypoint` after the dial request (agent.py lines
380-446): on answer, await the session-start task then wait for the
participant (a failure there lands in the generic except clause); on a
`TwirpError` from dialing, log the structured error; on any other
exception, log it.  No join wait, DTMF or opening line happens on a
failure path. -/
def postDial (cfg : Config) (o : Outcomes) : List Event :=
  match o.dial with
  | .answered =>
      Event.awaitSessionStarted ::
      (if o.joinOk then joinBranch cfg else [Event.logUnexpectedError])
  | .twirpError => [Event.logDialTwirpError]
  | .otherError => [Event.logUnexpectedError]

/-- The full `entrypoint` trace (agent.py lines 143-446). -/
def entrypointTrace (cfg : Config) (o : Outcomes) : List Event :=
  preDial o ++ [Event.dialRequest (phoneOf cfg)] ++ postDial cfg o

/-- `agent.participant` at shutdown time: set by `set_participant` only
after a successful dial and participant join (agent.py line 398). -/
def participantOf (cfg : Config) (o : Outcomes) : Option String :=
  if o.dial = DialOutcome.answered && o.joinOk then some (phoneOf cfg)
  else none

/-- The transcript payload (agent.py lines 244-251): the session
history, or the placeholder error payload if reading it raised. -/
def transcriptOf (o : Outcomes) : Transcript :=
  match o.historyOk with
  | some h => Transcript.history h
  | none => Transcript.placeholder "failed to read history"

/-- `ctx.job.id` filtered by truthiness, for the meta column. -/
def jobIdTruthy (cfg : Config) : Option String :=
  match cfg.jobId with
  | some s => if s = "" then none else some s
  | none => none

/-- The `meta` column (agent.py lines 274-283): NULL when neither a
truthy job id nor a non-empty dial-info dict is available. -/
def metaOf (cfg : Config) : Option MetaPayload :=
  let jid := jobIdTruthy cfg
  let di := dialInfoOf cfg.metadata
  let diOpt := if di.isEmptyDict then none else some di
  if jid = none && diOpt = none then none else some ⟨jid, diOpt⟩

/-- The row `_shutdown_tasks` binds for insertion into `interviews`
(agent.py lines 300-319): `ended_at` is always stamped with the current
time; `started_at` only if the session exposed a usable start
attribute; the participant identity only if one was set. -/
def rowOf (cfg : Config) (o : Outcomes) : TranscriptRow :=
  { room_name := some cfg.roomName
    participant_identity := participantOf cfg o
    egress_id := egressIdOf o
    started_at := o.startedAtAttr
    ended_at := some o.now
    transcript := transcriptOf o
    meta := metaOf cfg }

/-- The stop-egress block (agent.py lines 333-347): runs only when
`egress_id` is truthy; an already-stopped/failed response is logged at
info level and ignored, an unexpected `TwirpError` is logged as a
warning, any other exception is logged — none of them is re-raised. -/
def stopEvents (o : Outcomes) : List Event :=
  match egressIdOf o with
  | some s =>
      if s = "" then []
      else
        Event.stopEgressCall s ::
        (match o.stop with
         | .ok => [Event.stopOk]
         | .alreadyStopped => [Event.stopIgnoredAlreadyFailed]
         | .unexpectedTwirp => [Event.logStopUnexpectedTwirp]
         | .exceptionErr => [Event.logStopException])
  | none => []

/-- One run of `_shutdown_tasks` (agent.py lines 235-358): prepare the
transcript (placeholder on history failure); connect to the database —
on connection failure log and return early, skipping both the insert
and the stop-egress block; otherwise attempt exactly one insert (logged
on failure), release cursor and connection in its finally clause, then
run the stop-egress block; the outer finally always closes the API
client. -/
def shutdownTrace (cfg : Config) (o : Outcomes) : List Event :=
  Event.shutdownHookStart ::
  ((match o.historyOk with
    | some _ => []
    | none => [Event.historyPlaceholder])
   ++ (if o.dbConnect then
         [Event.dbConnected]
         ++ (if o.dbInsert then [Event.rowInserted (rowOf cfg o)]
             else [Event.logInsertFailure (rowOf cfg o)])
         ++ [Event.connReleased]
         ++ stopEvents o
       else [Event.logDbConnectFailure])
   ++ [Event.closeClient])

/-- Discriminator: recording-start attempt. -/
def Event.isEgressStartAttempt : Event → Bool
  | .egressStartAttempt => true
  | _ => false

/-- Discriminator: outbound dial request. -/
def Event.isDialRequest : Event → Bool
  | .dialRequest _ => true
  | _ => false

/-- Discriminator: session-start task launched. -/
def Event.isSessionLaunched : Event → Bool
  | .sessionStartLaunched => true
  | _ => false

/-- Discriminator: DTMF tone transmitted. -/
def Event.isTone : Event → Bool
  | .dtmfTone _ _ => true
  | _ => false

/-- Discriminator: callee participant confirmed joined. -/
def Event.isJoined : Event → Bool
  | .participantJoined _ => true
  | _ => false

/-- Discriminator: post-join settle delay elapsed. -/
def Event.isSettle : Event → Bool
  | .settleDelay => true
  | _ => false

/-- Discriminator: conversational session ended. -/
def Event.isSessionEnded : Event → Bool
  | .sessionEnded => true
  | _ => false

/-- Discriminator: shutdown-hook run started. -/
def Event.isHookStart : Event → Bool
  | .shutdownHookStart => true
  | _ => false

/-- Discriminator: shutdown-callback registration. -/
def Event.isRegister : Event → Bool
  | .registerShutdownHook => true
  | _ => false

/-- How many times `entrypoint` registered the shutdown callback
(`ctx.add_shutdown_callback`, agent.py line 361). -/
def registrationCount (cfg : Config) (o : Outcomes) : Nat :=
  (entrypointTrace cfg o).countP Event.isRegister

/-- One whole job: the entrypoint trace, then (framework contract) the
session ends and each registered shutdown callback runs once. -/
def runJob (cfg : Config) (o : Outcomes) : List Event :=
  entrypointTrace cfg o ++ [Event.sessionEnded]
  ++ (List.replicate (registrationCount cfg o) (shutdownTrace cfg o)).flatten

/-- Rows actually written to the store (successful inserts). -/
def writtenRows (tr : List Event) : List TranscriptRow :=
  tr.filterMap fun e =>
    match e with
    | .rowInserted r => some r
    | _ => none

/-- Rows the hook submitted for insertion (whether or not the insert
succeeded). -/
def submittedRows (tr : List Event) : List TranscriptRow :=
  tr.filterMap fun e =>
    match e with
    | .rowInserted r => some r
    | .logInsertFailure r => some r
    | _ => none

/-- The (code, digit) pairs of the DTMF tones of a trace, in order. -/
def toneEvents (tr : List Event) : List (Nat × Char) :=
  tr.filterMap fun e =>
    match e with
    | .dtmfTone c d => some (c, d)
    | _ => none

/-- Number of shutdown-hook runs in a trace. -/
def hookCount (tr : List Event) : Nat :=
  tr.countP Event.isHookStart

/-- The egress ids passed to `stop_egress` in a trace, in order. -/
def stopCalls (tr : List Event) : List String :=
  tr.filterMap fun e =>
    match e with
    | .stopEgressCall s => some s
    | _ => none

/-- Every event satisfying `p` occurs strictly before every event
satisfying `q` in the trace. -/
def Precedes (p q : Event → Bool) (tr : List Event) : Prop :=
  ∀ i j, (hi : i < tr.length) → (hj : j < tr.length) →
    p (tr.get ⟨i, hi⟩) = true → q (tr.get ⟨j, hj⟩) = true → i < j

/-- If the trace splits as `a ++ b` with no `q`-event in `a` and no
`p`-event in `b`, then every `p`-event precedes every `q`-event. -/
lemma precedes_of_split (p q : Event → Bool) (tr a b : List Event)
    (htr : tr = a ++ b)
    (hq : ∀ e ∈ a, q e = false) (hp : ∀ e ∈ b, p e = false) :
    Precedes p q tr := by
  subst htr
  intro i j hi hj hpi hqj
  rw [List.get_eq_getElem] at hpi hqj
  have hlen := hi
  have hlenj := hj
  rw [List.length_append] at hlen hlenj
  have hia : i < a.length := by
    by_contra hge
    push_neg at hge
    have hib : i - a.length < b.length := by omega
    rw [List.getElem_append_right hge] at hpi
    have hmem : b[i - a.length] ∈ b := List.getElem_mem hib
    rw [hp _ hmem] at hpi
    exact Bool.noConfusion hpi
  have hja : a.length ≤ j := by
    by_contra hlt
    push_neg at hlt
    rw [List.getElem_append_left hlt] at hqj
    have hmem : a[j] ∈ a := List.getElem_mem hlt
    rw [hq _ hmem] at hqj
    exact Bool.noConfusion hqj
  omega

/-- If no event of the trace satisfies `q`, the ordering holds
vacuously. -/
lemma precedes_of_no_q (p q : Event → Bool) (tr : List Event)
    (hq : ∀ e ∈ tr, q e = false) : Precedes p q tr := by
  intro i j hi hj hpi hqj
  rw [List.get_eq_getElem] at hqj
  have hmem : tr[j] ∈ tr := List.getElem_mem hj
  rw [hq _ hmem] at hqj
  exact Bool.noConfusion hqj

/-- Every event of `sendPinEvents` is a tone or a gap. -/
lemma sendPin_tone_or_gap (pin : List Char) :
    ∀ e ∈ sendPinEvents pin,
      (∃ c d, e = Event.dtmfTone c d) ∨ e = Event.toneGap := by
  intro e he
  simp only [sendPinEvents, List.mem_flatMap] at he
  obtain ⟨d, _, hd⟩ := he
  cases h : dtmfMap d with
  | some code =>
      rw [h] at hd
      simp only [List.mem_cons, List.mem_singleton] at hd
      rcases hd with rfl | rfl | h0
      · exact Or.inl ⟨code, d, rfl⟩
      · exact Or.inr rfl
      · exact absurd h0 (List.not_mem_nil e)
  | none =>
      rw [h] at hd
      exact absurd hd (List.not_mem_nil e)

/-- Shape of the events of `preDial`. -/
lemma mem_preDial {o : Outcomes} {e : Event} (he : e ∈ preDial o) :
    e = Event.connect ∨ e = Event.egressStartAttempt
    ∨ (∃ id, e = Event.egressStarted id) ∨ e = Event.logEgressFailure
    ∨ e = Event.registerShutdownHook ∨ e = Event.sessionStartLaunched := by
  cases h : o.egress <;> rw [preDial, h] at he <;> simp at he <;> tauto

/-- Shape of the events of `joinBranch`. -/
lemma mem_joinBranch {cfg : Config} {e : Event} (he : e ∈ joinBranch cfg) :
    e = Event.participantJoined (phoneOf cfg) ∨ e = Event.settleDelay
    ∨ (∃ c d, e = Event.dtmfTone c d) ∨ e = Event.toneGap
    ∨ e = Event.shortPause ∨ e = Event.sayOpening := by
  rw [joinBranch] at he
  rcases List.mem_append.mp he with he1 | he2
  · rcases List.mem_append.mp he1 with he3 | hp
    · simp at he3; tauto
    · rcases sendPin_tone_or_gap _ e hp with h | rfl
      · exact Or.inr (Or.inr (Or.inl h))
      · exact Or.inr (Or.inr (Or.inr (Or.inl rfl)))
  · simp at he2; tauto

/-- Shape of the events of `postDial`. -/
lemma mem_postDial {cfg : Config} {o : Outcomes} {e : Event}
    (he : e ∈ postDial cfg o) :
    e = Event.awaitSessionStarted ∨ e = Event.logUnexpectedError
    ∨ e = Event.logDialTwirpError ∨ e ∈ joinBranch cfg := by
  cases h : o.dial <;> rw [postDial, h] at he
  · rcases List.mem_cons.mp he with rfl | he2
    · tauto
    · by_cases hj : o.joinOk
      · rw [if_pos hj] at he2; tauto
      · rw [if_neg hj] at he2; simp at he2; tauto
  · simp at he; tauto
  · simp at he; tauto

/-- Shape of the events of `entrypointTrace`. -/
lemma mem_entrypointTrace {cfg : Config} {o : Outcomes} {e : Event}
    (he : e ∈ entrypointTrace cfg o) :
    e ∈ preDial o ∨ e = Event.dialRequest (phoneOf cfg)
    ∨ e ∈ postDial cfg o := by
  rw [entrypointTrace] at he
  simp only [List.mem_append, List.mem_singleton] at he
  tauto

/-- Shape of the events of `stopEvents`. -/
lemma mem_stopEvents {o : Outcomes} {e : Event} (he : e ∈ stopEvents o) :
    (∃ s, e = Event.stopEgressCall s) ∨ e = Event.stopOk
    ∨ e = Event.stopIgnoredAlreadyFailed ∨ e = Event.logStopUnexpectedTwirp
    ∨ e = Event.logStopException := by
  rw [stopEvents] at he
  split at he
  · rename_i s heq
    split at he
    · exact absurd he (List.not_mem_nil e)
    · rcases List.mem_cons.mp he with rfl | he2
      · exact Or.inl ⟨s, rfl⟩
      · split at he2 <;> simp at he2 <;> tauto
  · exact absurd he (List.not_mem_nil e)

/-- Shape of the events of `shutdownTrace`. -/
lemma mem_shutdownTrace {cfg : Config} {o : Outcomes} {e : Event}
    (he : e ∈ shutdownTrace cfg o) :
    e = Event.shutdownHookStart ∨ e = Event.historyPlaceholder
    ∨ e = Event.dbConnected ∨ (∃ r, e = Event.rowInserted r)
    ∨ (∃ r, e = Event.logInsertFailure r) ∨ e = Event.connReleased
    ∨ e = Event.logDbConnectFailure ∨ e ∈ stopEvents o
    ∨ e = Event.closeClient := by
  rw [shutdownTrace] at he
  rcases List.mem_cons.mp he with rfl | he2
  · tauto
  · simp only [List.mem_append, List.mem_singleton] at he2
    rcases he2 with (hh | hdb) | rfl
    · cases h : o.historyOk with
      | none => rw [h] at hh; simp at hh; tauto
      | some val => rw [h] at hh; simp at hh
    · by_cases hc : o.dbConnect
      · rw [if_pos hc] at hdb
        simp only [List.mem_append, List.mem_cons, List.mem_singleton,
          List.not_mem_nil, or_false] at hdb
        rcases hdb with ((rfl | hins) | rfl) | hst
        · tauto
        · by_cases hi : o.dbInsert
          · rw [if_pos hi] at hins; simp at hins; subst hins
            exact Or.inr (Or.inr (Or.inr (Or.inl ⟨rowOf cfg o, rfl⟩)))
          · rw [if_neg hi] at hins; simp at hins; subst hins
            exact Or.inr (Or.inr (Or.inr (Or.inr (Or.inl ⟨rowOf cfg o, rfl⟩))))
        · tauto
        · tauto
      · rw [if_neg hc] at hdb; simp at hdb; tauto
    · tauto

/-- The constructor families that can occur in the entrypoint trace. -/
def entryKind : Event → Bool
  | .connect => true
  | .egressStartAttempt => true
  | .egressStarted _ => true
  | .logEgressFailure => true
  | .registerShutdownHook => true
  | .sessionStartLaunched => true
  | .dialRequest _ => true
  | .awaitSessionStarted => true
  | .logUnexpectedError => true
  | .logDialTwirpError => true
  | .participantJoined _ => true
  | .settleDelay => true
  | .dtmfTone _ _ => true
  | .toneGap => true
  | .shortPause => true
  | .sayOpening => true
  | _ => false

/-- Every event of the entrypoint trace is of an entry kind. -/
lemma entryKind_entry (cfg : Config) (o : Outcomes) :
    ∀ e ∈ entrypointTrace cfg o, entryKind e = true := by
  intro e he
  rcases mem_entrypointTrace he with h | rfl | h
  · rcases mem_preDial h with rfl | rfl | ⟨id, rfl⟩ | rfl | rfl | rfl <;> rfl
  · rfl
  · rcases mem_postDial h with rfl | rfl | rfl | hj
    · rfl
    · rfl
    · rfl
    · rcases mem_joinBranch hj with rfl | rfl | ⟨c, d, rfl⟩ | rfl | rfl | rfl <;> rfl

/-- A predicate false on both halves of an append is false throughout. -/
lemma forall_mem_append {p : Event → Bool} {a b : List Event}
    (ha : ∀ e ∈ a, p e = false) (hb : ∀ e ∈ b, p e = false) :
    ∀ e ∈ a ++ b, p e = false := by
  intro e he
  rcases List.mem_append.mp he with h | h
  · exact ha e h
  · exact hb e h

/-- Extraction returning `none` on every entry-kind event yields nothing
from the entrypoint trace. -/
lemma filterMap_entry_none {β : Type} (f : Event → Option β)
    (cfg : Config) (o : Outcomes)
    (hf : ∀ e, entryKind e = true → f e = none) :
    (entrypointTrace cfg o).filterMap f = [] := by
  rw [List.filterMap_eq_nil_iff]
  exact fun e he => hf e (entryKind_entry cfg o e he)

/-- A predicate false on every entry-kind event counts zero on the
entrypoint trace. -/
lemma countP_entry_zero (f : Event → Bool) (cfg : Config) (o : Outcomes)
    (hf : ∀ e, entryKind e = true → f e = false) :
    (entrypointTrace cfg o).countP f = 0 := by
  rw [List.countP_eq_zero]
  intro e he
  rw [hf e (entryKind_entry cfg o e he)]
  exact Bool.noConfusion

/-- A predicate false on tones and gaps is false on the whole DTMF
event sequence. -/
lemma forall_sendPin_false (f : Event → Bool) (pin : List Char)
    (h1 : ∀ c d, f (Event.dtmfTone c d) = false) (h2 : f Event.toneGap = false) :
    ∀ e ∈ sendPinEvents pin, f e = false := by
  intro e he
  rcases sendPin_tone_or_gap pin e he with ⟨c, d, rfl⟩ | rfl
  · exact h1 c d
  · exact h2

/-- A predicate false on every stop-block constructor is false on the
stop-egress events. -/
lemma forall_stop_false (f : Event → Bool) (o : Outcomes)
    (h1 : ∀ s, f (Event.stopEgressCall s) = false) (h2 : f Event.stopOk = false)
    (h3 : f Event.stopIgnoredAlreadyFailed = false)
    (h4 : f Event.logStopUnexpectedTwirp = false)
    (h5 : f Event.logStopException = false) :
    ∀ e ∈ stopEvents o, f e = false := by
  intro e he
  rcases mem_stopEvents he with ⟨s, rfl⟩ | rfl | rfl | rfl | rfl
  · exact h1 s
  · exact h2
  · exact h3
  · exact h4
  · exact h5

/-- A predicate false on every shutdown constructor is false on the
shutdown trace. -/
lemma forall_shutdown_false (f : Event → Bool) (cfg : Config) (o : Outcomes)
    (h1 : f Event.shutdownHookStart = false) (h2 : f Event.historyPlaceholder = false)
    (h3 : f Event.dbConnected = false) (h4 : ∀ r, f (Event.rowInserted r) = false)
    (h5 : ∀ r, f (Event.logInsertFailure r) = false) (h6 : f Event.connReleased = false)
    (h7 : f Event.logDbConnectFailure = false)
    (h8 : ∀ s, f (Event.stopEgressCall s) = false) (h9 : f Event.stopOk = false)
    (h10 : f Event.stopIgnoredAlreadyFailed = false)
    (h11 : f Event.logStopUnexpectedTwirp = false)
    (h12 : f Event.logStopException = false) (h13 : f Event.closeClient = false) :
    ∀ e ∈ shutdownTrace cfg o, f e = false := by
  intro e he
  rcases mem_shutdownTrace he with rfl | rfl | rfl | ⟨r, rfl⟩ | ⟨r, rfl⟩ | rfl | rfl | hst | rfl
  · exact h1
  · exact h2
  · exact h3
  · exact h4 r
  · exact h5 r
  · exact h6
  · exact h7
  · exact forall_stop_false f o h8 h9 h10 h11 h12 e hst
  · exact h13

/-- Extraction returning `none` on every shutdown constructor yields
nothing from the shutdown trace. -/
lemma filterMap_shutdown_none {β : Type} (f : Event → Option β)
    (cfg : Config) (o : Outcomes)
    (h1 : f Event.shutdownHookStart = none) (h2 : f Event.historyPlaceholder = none)
    (h3 : f Event.dbConnected = none) (h4 : ∀ r, f (Event.rowInserted r) = none)
    (h5 : ∀ r, f (Event.logInsertFailure r) = none) (h6 : f Event.connReleased = none)
    (h7 : f Event.logDbConnectFailure = none)
    (h8 : ∀ s, f (Event.stopEgressCall s) = none) (h9 : f Event.stopOk = none)
    (h10 : f Event.stopIgnoredAlreadyFailed = none)
    (h11 : f Event.logStopUnexpectedTwirp = none)
    (h12 : f Event.logStopException = none) (h13 : f Event.closeClient = none) :
    (shutdownTrace cfg o).filterMap f = [] := by
  rw [List.filterMap_eq_nil_iff]
  intro e he
  rcases mem_shutdownTrace he with rfl | rfl | rfl | ⟨r, rfl⟩ | ⟨r, rfl⟩ | rfl | rfl | hst | rfl
  · exact h1
  · exact h2
  · exact h3
  · exact h4 r
  · exact h5 r
  · exact h6
  · exact h7
  · rcases mem_stopEvents hst with ⟨s, rfl⟩ | rfl | rfl | rfl | rfl
    · exact h8 s
    · exact h9
    · exact h10
    · exact h11
    · exact h12
  · exact h13

/-- Extraction returning `none` on tones and gaps yields nothing from
the DTMF event sequence. -/
lemma filterMap_sendPin_none {β : Type} (f : Event → Option β) (pin : List Char)
    (h1 : ∀ c d, f (Event.dtmfTone c d) = none) (h2 : f Event.toneGap = none) :
    (sendPinEvents pin).filterMap f = [] := by
  rw [List.filterMap_eq_nil_iff]
  intro e he
  rcases sendPin_tone_or_gap pin e he with ⟨c, d, rfl⟩ | rfl
  · exact h1 c d
  · exact h2

/-- The entrypoint registers the shutdown callback exactly once. -/
lemma registrationCount_eq_one (cfg : Config) (o : Outcomes) :
    registrationCount cfg o = 1 := by
  have hsp : (sendPinEvents (pinUsed cfg).toList).countP Event.isRegister = 0 := by
    rw [List.countP_eq_zero]
    intro e he
    rw [forall_sendPin_false Event.isRegister _ (fun c d => rfl) rfl e he]
    exact Bool.noConfusion
  rw [registrationCount, entrypointTrace, List.countP_append, List.countP_append]
  have h1 : (preDial o).countP Event.isRegister = 1 := by
    cases h : o.egress <;>
      simp [preDial, h, List.countP_append, List.countP_cons, Event.isRegister]
  have h2 : ([Event.dialRequest (phoneOf cfg)]).countP Event.isRegister = 0 := by
    simp [List.countP_cons, Event.isRegister]
  have h3 : (postDial cfg o).countP Event.isRegister = 0 := by
    cases h : o.dial
    · by_cases hj : o.joinOk
      · simp [postDial, h, hj, joinBranch, List.countP_append, List.countP_cons,
          Event.isRegister]
        intro a ha
        exact forall_sendPin_false Event.isRegister (pinUsed cfg).toList
          (fun c d => rfl) rfl a ha
      · simp [postDial, h, hj, List.countP_cons, Event.isRegister]
    · simp [postDial, h, List.countP_cons, Event.isRegister]
    · simp [postDial, h, List.countP_cons, Event.isRegister]
  rw [h1, h2, h3]

/-- The whole job runs the single registered shutdown callback once. -/
lemma runJob_eq (cfg : Config) (o : Outcomes) :
    runJob cfg o
      = entrypointTrace cfg o ++ [Event.sessionEnded] ++ shutdownTrace cfg o := by
  rw [runJob, registrationCount_eq_one]
  simp [List.append_assoc]

/-- Extraction returning `none` on every stop-block constructor yields
nothing from the stop-egress events. -/
lemma filterMap_stop_none {β : Type} (f : Event → Option β) (o : Outcomes)
    (h1 : ∀ s, f (Event.stopEgressCall s) = none) (h2 : f Event.stopOk = none)
    (h3 : f Event.stopIgnoredAlreadyFailed = none)
    (h4 : f Event.logStopUnexpectedTwirp = none)
    (h5 : f Event.logStopException = none) :
    (stopEvents o).filterMap f = [] := by
  rw [List.filterMap_eq_nil_iff]
  intro e he
  rcases mem_stopEvents he with ⟨s, rfl⟩ | rfl | rfl | rfl | rfl
  · exact h1 s
  · exact h2
  · exact h3
  · exact h4
  · exact h5

/-- `writtenRows` distributes over append. -/
lemma writtenRows_append (a b : List Event) :
    writtenRows (a ++ b) = writtenRows a ++ writtenRows b :=
  List.filterMap_append a b _

/-- `submittedRows` distributes over append. -/
lemma submittedRows_append (a b : List Event) :
    submittedRows (a ++ b) = submittedRows a ++ submittedRows b :=
  List.filterMap_append a b _

/-- `stopCalls` distributes over append. -/
lemma stopCalls_append (a b : List Event) :
    stopCalls (a ++ b) = stopCalls a ++ stopCalls b :=
  List.filterMap_append a b _

/-- `toneEvents` distributes over append. -/
lemma toneEvents_append (a b : List Event) :
    toneEvents (a ++ b) = toneEvents a ++ toneEvents b :=
  List.filterMap_append a b _

/-- `hookCount` adds over append. -/
lemma hookCount_append (a b : List Event) :
    hookCount (a ++ b) = hookCount a + hookCount b :=
  List.countP_append _ a b

/-- Rows written by one shutdown run: exactly the one assembled row when
the connection and the insert both succeed, otherwise nothing. -/
lemma writtenRows_shutdown (cfg : Config) (o : Outcomes) :
    writtenRows (shutdownTrace cfg o)
      = if o.dbConnect && o.dbInsert then [rowOf cfg o] else [] := by
  have hstop := filterMap_stop_none
    (fun e => match e with | Event.rowInserted r => some r | _ => none) o
    (fun s => rfl) rfl rfl rfl rfl
  cases hc : o.dbConnect <;> cases hi : o.dbInsert <;> cases hh : o.historyOk <;>
    simp [shutdownTrace, writtenRows, hc, hi, hh, List.filterMap_append,
      List.filterMap_cons, hstop]

/-- Rows submitted for insertion by one shutdown run: exactly the one
assembled row when the connection succeeds, otherwise nothing. -/
lemma submittedRows_shutdown (cfg : Config) (o : Outcomes) :
    submittedRows (shutdownTrace cfg o)
      = if o.dbConnect then [rowOf cfg o] else [] := by
  have hstop := filterMap_stop_none
    (fun e => match e with
      | Event.rowInserted r => some r
      | Event.logInsertFailure r => some r
      | _ => none) o
    (fun s => rfl) rfl rfl rfl rfl
  cases hc : o.dbConnect <;> cases hi : o.dbInsert <;> cases hh : o.historyOk <;>
    simp [shutdownTrace, submittedRows, hc, hi, hh, List.filterMap_append,
      List.filterMap_cons, hstop]

/-- Stop-egress calls of the stop block alone: one call when a truthy
egress id exists, none otherwise. -/
lemma stopCalls_stopEvents (o : Outcomes) :
    stopCalls (stopEvents o)
      = (match egressIdOf o with
         | some s => if s = "" then [] else [s]
         | none => []) := by
  cases h : egressIdOf o with
  | none => simp [stopEvents, stopCalls, h]
  | some s =>
      by_cases hs : s = ""
      · simp [stopEvents, stopCalls, h, hs]
      · cases hst : o.stop <;>
          simp [stopEvents, stopCalls, h, hs, hst, List.filterMap_cons]

/-- Stop-egress calls of one shutdown run: the stop block runs only when
the database connection succeeded. -/
lemma stopCalls_shutdown (cfg : Config) (o : Outcomes) :
    stopCalls (shutdownTrace cfg o)
      = if o.dbConnect then stopCalls (stopEvents o) else [] := by
  cases hc : o.dbConnect <;> cases hi : o.dbInsert <;> cases hh : o.historyOk <;>
    simp [shutdownTrace, stopCalls, hc, hi, hh, List.filterMap_append,
      List.filterMap_cons]

/-- One shutdown run starts exactly one hook. -/
lemma hookCount_shutdown (cfg : Config) (o : Outcomes) :
    hookCount (shutdownTrace cfg o) = 1 := by
  cases hc : o.dbConnect <;> cases hi : o.dbInsert <;> cases hh : o.historyOk <;>
    simp [shutdownTrace, hookCount, hc, hi, hh, List.countP_append,
      List.countP_cons, Event.isHookStart] <;>
    (intro a ha
     exact forall_stop_false Event.isHookStart o (fun s => rfl) rfl rfl rfl rfl a ha)

/-- A cons followed by a concat ends in the concatenated element. -/
lemma getLast_cons_concat (x a : Event) (l : List Event) :
    (x :: (l ++ [a])).getLast? = some a := by
  rw [← List.cons_append, List.getLast?_concat]

/-- The shutdown run always ends by closing the API client. -/
lemma shutdown_getLast (cfg : Config) (o : Outcomes) :
    (shutdownTrace cfg o).getLast? = some Event.closeClient := by
  rw [shutdownTrace]
  exact getLast_cons_concat _ _ _

/-- The whole job trace ends by closing the API client. -/
lemma runJob_getLast (cfg : Config) (o : Outcomes) :
    (runJob cfg o).getLast? = some Event.closeClient := by
  rw [runJob_eq, List.getLast?_append, shutdown_getLast]
  rfl

/-- The tones of the DTMF event sequence are exactly the recognized
symbols of the PIN, each paired with its code, in input order. -/
lemma toneEvents_sendPin (pin : List Char) :
    toneEvents (sendPinEvents pin)
      = pin.filterMap (fun d => (dtmfMap d).map fun c => (c, d)) := by
  induction pin with
  | nil => rfl
  | cons d rest ih =>
      cases h : dtmfMap d with
      | some c =>
          have hsp : sendPinEvents (d :: rest)
              = [Event.dtmfTone c d, Event.toneGap] ++ sendPinEvents rest := by
            rw [sendPinEvents, List.flatMap_cons, h]
            rfl
          rw [hsp, toneEvents_append, List.filterMap_cons, h, Option.map_some']
          rw [ih]
          rfl
      | none =>
          have hsp : sendPinEvents (d :: rest) = sendPinEvents rest := by
            rw [sendPinEvents, List.flatMap_cons, h]
            rfl
          rw [hsp, List.filterMap_cons, h, Option.map_none']
          exact ih

/-- The DTMF event sequence is exactly one tone-then-gap block per
recognized symbol, in input order; unrecognized symbols contribute
nothing (no tone and no gap). -/
lemma sendPin_eq_blocks (pin : List Char) :
    sendPinEvents pin
      = (pin.filterMap fun d => (dtmfMap d).map fun c => (c, d)).flatMap
          (fun p => [Event.dtmfTone p.1 p.2, Event.toneGap]) := by
  induction pin with
  | nil => rfl
  | cons d rest ih =>
      cases h : dtmfMap d with
      | some c =>
          rw [List.filterMap_cons, h, Option.map_some', List.flatMap_cons]
          rw [← ih]
          rw [sendPinEvents, List.flatMap_cons, h]
          rfl
      | none =>
          rw [List.filterMap_cons, h, Option.map_none']
          rw [← ih]
          rw [sendPinEvents, List.flatMap_cons, h]
          rfl

/-- Tones of the post-dial phase: present only when the dial was
answered and the participant joined. -/
lemma toneEvents_postDial (cfg : Config) (o : Outcomes) :
    toneEvents (postDial cfg o)
      = if o.dial = DialOutcome.answered ∧ o.joinOk = true
        then toneEvents (sendPinEvents (pinUsed cfg).toList)
        else [] := by
  cases h : o.dial
  case answered =>
    by_cases hj : o.joinOk
    · simp [postDial, h, hj, joinBranch, toneEvents, List.filterMap_append,
        List.filterMap_cons]
    · simp [postDial, h, hj, toneEvents, List.filterMap_cons]
  case twirpError => simp [postDial, h, toneEvents, List.filterMap_cons]
  case otherError => simp [postDial, h, toneEvents, List.filterMap_cons]

/-- Tones of a whole job: exactly the recognized symbols of the PIN in
use, in order, when the dial was answered and the participant joined;
no tone is ever emitted otherwise. -/
lemma toneEvents_runJob (cfg : Config) (o : Outcomes) :
    toneEvents (runJob cfg o)
      = if o.dial = DialOutcome.answered ∧ o.joinOk = true
        then (pinUsed cfg).toList.filterMap (fun d => (dtmfMap d).map fun c => (c, d))
        else [] := by
  have hpre : toneEvents (preDial o) = [] := by
    cases h : o.egress <;>
      simp [preDial, h, toneEvents, List.filterMap_append, List.filterMap_cons]
  have hsh : toneEvents (shutdownTrace cfg o) = [] :=
    filterMap_shutdown_none _ cfg o rfl rfl rfl (fun r => rfl) (fun r => rfl)
      rfl rfl (fun s => rfl) rfl rfl rfl rfl rfl
  rw [runJob_eq, toneEvents_append, toneEvents_append, hsh]
  rw [entrypointTrace, toneEvents_append, toneEvents_append, hpre,
    toneEvents_postDial]
  have hone : toneEvents [Event.dialRequest (phoneOf cfg)] = [] := rfl
  have htwo : toneEvents [Event.sessionEnded] = [] := rfl
  rw [hone, htwo, toneEvents_sendPin]
  by_cases hc : o.dial = DialOutcome.answered ∧ o.joinOk = true
  · rw [if_pos hc]
    simp
  · rw [if_neg hc]
    simp

/-- Rows written over a whole job: one exactly when connection and
insert succeed, otherwise none. -/
lemma writtenRows_runJob (cfg : Config) (o : Outcomes) :
    writtenRows (runJob cfg o)
      = if o.dbConnect && o.dbInsert then [rowOf cfg o] else [] := by
  have hentry : writtenRows (entrypointTrace cfg o) = [] :=
    filterMap_entry_none _ cfg o
      (by intro e he; cases e <;> first | rfl | exact Bool.noConfusion he)
  rw [runJob_eq, writtenRows_append, writtenRows_append, hentry,
    writtenRows_shutdown]
  rfl

/-- Rows submitted for insertion over a whole job: one exactly when the
connection succeeds, otherwise none. -/
lemma submittedRows_runJob (cfg : Config) (o : Outcomes) :
    submittedRows (runJob cfg o)
      = if o.dbConnect then [rowOf cfg o] else [] := by
  have hentry : submittedRows (entrypointTrace cfg o) = [] :=
    filterMap_entry_none _ cfg o
      (by intro e he; cases e <;> first | rfl | exact Bool.noConfusion he)
  rw [runJob_eq, submittedRows_append, submittedRows_append, hentry,
    submittedRows_shutdown]
  rfl

/-- Stop-egress calls over a whole job. -/
lemma stopCalls_runJob (cfg : Config) (o : Outcomes) :
    stopCalls (runJob cfg o)
      = if o.dbConnect then stopCalls (stopEvents o) else [] := by
  have hentry : stopCalls (entrypointTrace cfg o) = [] :=
    filterMap_entry_none _ cfg o
      (by intro e he; cases e <;> first | rfl | exact Bool.noConfusion he)
  rw [runJob_eq, stopCalls_append, stopCalls_append, hentry, stopCalls_shutdown]
  rfl

/-- The shutdown hook runs exactly once per job. -/
lemma hookCount_runJob (cfg : Config) (o : Outcomes) :
    hookCount (runJob cfg o) = 1 := by
  have hentry : hookCount (entrypointTrace cfg o) = 0 :=
    countP_entry_zero _ cfg o
      (by intro e he; cases e <;> first | rfl | exact Bool.noConfusion he)
  rw [runJob_eq, hookCount_append, hookCount_append, hentry, hookCount_shutdown]
  rfl

/-- A predicate false on every pre-dial constructor is false on the
pre-dial events. -/
lemma forall_preDial_false (f : Event → Bool) (o : Outcomes)
    (h1 : f Event.connect = false) (h2 : f Event.egressStartAttempt = false)
    (h3 : ∀ id, f (Event.egressStarted id) = false)
    (h4 : f Event.logEgressFailure = false)
    (h5 : f Event.registerShutdownHook = false)
    (h6 : f Event.sessionStartLaunched = false) :
    ∀ e ∈ preDial o, f e = false := by
  intro e he
  rcases mem_preDial he with rfl | rfl | ⟨id, rfl⟩ | rfl | rfl | rfl
  · exact h1
  · exact h2
  · exact h3 id
  · exact h4
  · exact h5
  · exact h6

/-- A predicate false on every post-dial constructor is false on the
post-dial events. -/
lemma forall_postDial_false (f : Event → Bool) (cfg : Config) (o : Outcomes)
    (h1 : f Event.awaitSessionStarted = false)
    (h2 : f Event.logUnexpectedError = false)
    (h3 : f Event.logDialTwirpError = false)
    (h4 : ∀ s, f (Event.participantJoined s) = false)
    (h5 : f Event.settleDelay = false)
    (h6 : ∀ c d, f (Event.dtmfTone c d) = false) (h7 : f Event.toneGap = false)
    (h8 : f Event.shortPause = false) (h9 : f Event.sayOpening = false) :
    ∀ e ∈ postDial cfg o, f e = false := by
  intro e he
  rcases mem_postDial he with rfl | rfl | rfl | hj
  · exact h1
  · exact h2
  · exact h3
  · rcases mem_joinBranch hj with rfl | rfl | ⟨c, d, rfl⟩ | rfl | rfl | rfl
    · exact h4 _
    · exact h5
    · exact h6 c d
    · exact h7
    · exact h8
    · exact h9

/-- A predicate false on every entry-kind event is false on the
entrypoint trace. -/
lemma forall_entry_false (f : Event → Bool) (cfg : Config) (o : Outcomes)
    (hf : ∀ e, entryKind e = true → f e = false) :
    ∀ e ∈ entrypointTrace cfg o, f e = false :=
  fun e he => hf e (entryKind_entry cfg o e he)

/-- A predicate false on each phase is false on the whole job trace. -/
lemma forall_runJob_false (f : Event → Bool) (cfg : Config) (o : Outcomes)
    (hpre : ∀ e ∈ preDial o, f e = false)
    (hdial : f (Event.dialRequest (phoneOf cfg)) = false)
    (hpost : ∀ e ∈ postDial cfg o, f e = false)
    (hse : f Event.sessionEnded = false)
    (hsh : ∀ e ∈ shutdownTrace cfg o, f e = false) :
    ∀ e ∈ runJob cfg o, f e = false := by
  intro e he
  rw [runJob_eq] at he
  rcases List.mem_append.mp he with h1 | h2
  · rcases List.mem_append.mp h1 with h3 | h4
    · rcases mem_entrypointTrace h3 with h | rfl | h
      · exact hpre e h
      · exact hdial
      · exact hpost e h
    · simp at h4
      subst h4
      exact hse
  · exact hsh e h2

/-- Without an answered dial and a joined participant, no tone is in
the post-dial events. -/
lemma no_tone_postDial (cfg : Config) (o : Outcomes)
    (h : o.dial ≠ DialOutcome.answered ∨ o.joinOk = false) :
    ∀ e ∈ postDial cfg o, Event.isTone e = false := by
  cases hd : o.dial
  case answered =>
    have hj : o.joinOk = false := by
      rcases h with h | h
      · exact absurd hd h
      · exact h
    intro e he
    simp [postDial, hd, hj] at he
    rcases he with rfl | rfl <;> rfl
  case twirpError =>
    intro e he
    simp [postDial, hd] at he
    subst he
    rfl
  case otherError =>
    intro e he
    simp [postDial, hd] at he
    subst he
    rfl

/-- Recording is requested before the dial request is issued. -/
lemma precedes_egress_dial (cfg : Config) (o : Outcomes) :
    Precedes Event.isEgressStartAttempt Event.isDialRequest (runJob cfg o) := by
  apply precedes_of_split Event.isEgressStartAttempt Event.isDialRequest _
    [Event.connect, Event.egressStartAttempt]
    ((match o.egress with
      | EgressOutcome.ok id => [Event.egressStarted id]
      | EgressOutcome.failed => [Event.logEgressFailure])
     ++ ([Event.registerShutdownHook, Event.sessionStartLaunched]
     ++ ([Event.dialRequest (phoneOf cfg)]
     ++ (postDial cfg o ++ ([Event.sessionEnded] ++ shutdownTrace cfg o)))))
  · rw [runJob_eq, entrypointTrace, preDial]
    simp [List.append_assoc]
  · decide
  · apply forall_mem_append
    · cases h : o.egress <;> intro e he <;> simp at he <;> (subst he; rfl)
    · apply forall_mem_append
      · decide
      · apply forall_mem_append
        · intro e he
          simp at he
          subst he
          rfl
        · apply forall_mem_append
          · exact forall_postDial_false _ cfg o rfl rfl rfl (fun s => rfl) rfl
              (fun c d => rfl) rfl rfl rfl
          · apply forall_mem_append
            · decide
            · exact forall_shutdown_false _ cfg o rfl rfl rfl (fun r => rfl)
                (fun r => rfl) rfl rfl (fun s => rfl) rfl rfl rfl rfl rfl

/-- The session-start task is launched before the dial request. -/
lemma precedes_launch_dial (cfg : Config) (o : Outcomes) :
    Precedes Event.isSessionLaunched Event.isDialRequest (runJob cfg o) := by
  apply precedes_of_split Event.isSessionLaunched Event.isDialRequest _
    (preDial o)
    ([Event.dialRequest (phoneOf cfg)]
     ++ (postDial cfg o ++ ([Event.sessionEnded] ++ shutdownTrace cfg o)))
  · rw [runJob_eq, entrypointTrace]
    simp [List.append_assoc]
  · exact forall_preDial_false _ o rfl rfl (fun id => rfl) rfl rfl rfl
  · apply forall_mem_append
    · intro e he
      simp at he
      subst he
      rfl
    · apply forall_mem_append
      · exact forall_postDial_false _ cfg o rfl rfl rfl (fun s => rfl) rfl
          (fun c d => rfl) rfl rfl rfl
      · apply forall_mem_append
        · decide
        · exact forall_shutdown_false _ cfg o rfl rfl rfl (fun r => rfl)
            (fun r => rfl) rfl rfl (fun s => rfl) rfl rfl rfl rfl rfl

/-- DTMF tones are sent only after the participant joined. -/
lemma precedes_joined_tone (cfg : Config) (o : Outcomes) :
    Precedes Event.isJoined Event.isTone (runJob cfg o) := by
  by_cases hd : o.dial = DialOutcome.answered
  · by_cases hj : o.joinOk = true
    · apply precedes_of_split Event.isJoined Event.isTone _
        (preDial o ++ ([Event.dialRequest (phoneOf cfg)]
          ++ [Event.awaitSessionStarted, Event.participantJoined (phoneOf cfg),
              Event.settleDelay]))
        (sendPinEvents (pinUsed cfg).toList
         ++ ([Event.shortPause, Event.sayOpening]
         ++ ([Event.sessionEnded] ++ shutdownTrace cfg o)))
      · rw [runJob_eq, entrypointTrace, postDial, hd, joinBranch]
        simp [hj, List.append_assoc]
      · apply forall_mem_append
        · exact forall_preDial_false _ o rfl rfl (fun id => rfl) rfl rfl rfl
        · intro e he
          simp at he
          rcases he with rfl | rfl | rfl | rfl <;> rfl
      · apply forall_mem_append
        · exact forall_sendPin_false _ _ (fun c d => rfl) rfl
        · apply forall_mem_append
          · decide
          · apply forall_mem_append
            · decide
            · exact forall_shutdown_false _ cfg o rfl rfl rfl (fun r => rfl)
                (fun r => rfl) rfl rfl (fun s => rfl) rfl rfl rfl rfl rfl
    · apply precedes_of_no_q
      apply forall_runJob_false
      · exact forall_preDial_false _ o rfl rfl (fun id => rfl) rfl rfl rfl
      · rfl
      · exact no_tone_postDial cfg o (Or.inr (by simpa using hj))
      · rfl
      · exact forall_shutdown_false _ cfg o rfl rfl rfl (fun r => rfl)
          (fun r => rfl) rfl rfl (fun s => rfl) rfl rfl rfl rfl rfl
  · apply precedes_of_no_q
    apply forall_runJob_false
    · exact forall_preDial_false _ o rfl rfl (fun id => rfl) rfl rfl rfl
    · rfl
    · exact no_tone_postDial cfg o (Or.inl hd)
    · rfl
    · exact forall_shutdown_false _ cfg o rfl rfl rfl (fun r => rfl)
        (fun r => rfl) rfl rfl (fun s => rfl) rfl rfl rfl rfl rfl

/-- DTMF tones are sent only after the settle delay has elapsed. -/
lemma precedes_settle_tone (cfg : Config) (o : Outcomes) :
    Precedes Event.isSettle Event.isTone (runJob cfg o) := by
  by_cases hd : o.dial = DialOutcome.answered
  · by_cases hj : o.joinOk = true
    · apply precedes_of_split Event.isSettle Event.isTone _
        (preDial o ++ ([Event.dialRequest (phoneOf cfg)]
          ++ [Event.awaitSessionStarted, Event.participantJoined (phoneOf cfg),
              Event.settleDelay]))
        (sendPinEvents (pinUsed cfg).toList
         ++ ([Event.shortPause, Event.sayOpening]
         ++ ([Event.sessionEnded] ++ shutdownTrace cfg o)))
      · rw [runJob_eq, entrypointTrace, postDial, hd, joinBranch]
        simp [hj, List.append_assoc]
      · apply forall_mem_append
        · exact forall_preDial_false _ o rfl rfl (fun id => rfl) rfl rfl rfl
        · intro e he
          simp at he
          rcases he with rfl | rfl | rfl | rfl <;> rfl
      · apply forall_mem_append
        · exact forall_sendPin_false _ _ (fun c d => rfl) rfl
        · apply forall_mem_append
          · decide
          · apply forall_mem_append
            · decide
            · exact forall_shutdown_false _ cfg o rfl rfl rfl (fun r => rfl)
                (fun r => rfl) rfl rfl (fun s => rfl) rfl rfl rfl rfl rfl
    · apply precedes_of_no_q
      apply forall_runJob_false
      · exact forall_preDial_false _ o rfl rfl (fun id => rfl) rfl rfl rfl
      · rfl
      · exact no_tone_postDial cfg o (Or.inr (by simpa using hj))
      · rfl
      · exact forall_shutdown_false _ cfg o rfl rfl rfl (fun r => rfl)
          (fun r => rfl) rfl rfl (fun s => rfl) rfl rfl rfl rfl rfl
  · apply precedes_of_no_q
    apply forall_runJob_false
    · exact forall_preDial_false _ o rfl rfl (fun id => rfl) rfl rfl rfl
    · rfl
    · exact no_tone_postDial cfg o (Or.inl hd)
    · rfl
    · exact forall_shutdown_false _ cfg o rfl rfl rfl (fun r => rfl)
        (fun r => rfl) rfl rfl (fun s => rfl) rfl rfl rfl rfl rfl

/-- The shutdown hook runs only after the session has ended. -/
lemma precedes_end_hook (cfg : Config) (o : Outcomes) :
    Precedes Event.isSessionEnded Event.isHookStart (runJob cfg o) := by
  apply precedes_of_split Event.isSessionEnded Event.isHookStart _
    (entrypointTrace cfg o ++ [Event.sessionEnded]) (shutdownTrace cfg o)
  · rw [runJob_eq]
  · apply forall_mem_append
    · exact forall_entry_false _ cfg o
        (by intro e he; cases e <;> first | rfl | exact Bool.noConfusion he)
    · decide
  · exact forall_shutdown_false _ cfg o rfl rfl rfl (fun r => rfl)
      (fun r => rfl) rfl rfl (fun s => rfl) rfl rfl rfl rfl rfl

/-- A successful table lookup means the key is among the table keys. -/
lemma lookup_mem_keys {c : Char} {v : Nat} :
    ∀ {l : List (Char × Nat)}, l.lookup c = some v → c ∈ l.map Prod.fst := by
  intro l
  induction l with
  | nil => intro h; exact Option.noConfusion h
  | cons p rest ih =>
      intro h
      obtain ⟨k, v2⟩ := p
      by_cases hc : c = k
      · subst hc; simp
      · have hbeq : (c == k) = false := by simp [hc]
        rw [List.lookup, hbeq] at h
        simp [ih h]

/-- Job configuration of the spec scenario: full metadata. -/
def cfgMain : Config :=
  ⟨"room1", some "job1", JobMetadata.valid ⟨some "+15551234567", some "9876#", false⟩⟩

/-- Metadata present and valid but lacking `phone_number`. -/
def cfgNoPhone : Config :=
  ⟨"room2", some "job2", JobMetadata.valid ⟨none, some "1234#", false⟩⟩

/-- Metadata present and valid but lacking `meeting_pin`. -/
def cfgNoPin : Config :=
  ⟨"room3", none, JobMetadata.valid ⟨some "+15550000000", none, false⟩⟩

/-- Metadata carrying an empty-string `meeting_pin`. -/
def cfgEmptyPin : Config :=
  ⟨"room4", none, JobMetadata.valid ⟨some "+15550000000", some "", false⟩⟩

/-- All external services succeed. -/
def oHappy : Outcomes :=
  ⟨EgressOutcome.ok (some "EG1"), DialOutcome.answered, true, some "hist",
   some 5, 9, true, true, StopOutcome.ok⟩

/-- Everything succeeds except the database connection. -/
def oDbFail : Outcomes :=
  ⟨EgressOutcome.ok (some "EG1"), DialOutcome.answered, true, some "hist",
   some 5, 9, false, true, StopOutcome.ok⟩

/-- Everything succeeds except the insert. -/
def oInsFail : Outcomes :=
  ⟨EgressOutcome.ok (some "EG1"), DialOutcome.answered, true, some "hist",
   none, 9, true, false, StopOutcome.ok⟩

/-- Everything succeeds except that reading the history raises. -/
def oHistFail : Outcomes :=
  ⟨EgressOutcome.ok (some "EG1"), DialOutcome.answered, true, none,
   none, 9, true, true, StopOutcome.ok⟩

/-- The dial fails with a structured telephony error. -/
def oDialFail : Outcomes :=
  ⟨EgressOutcome.ok (some "EG1"), DialOutcome.twirpError, false, some "hist",
   none, 9, true, true, StopOutcome.ok⟩

/-- Stopping the recording fails with an unexpected structured error. -/
def oStopTwirp : Outcomes :=
  ⟨EgressOutcome.ok (some "EG2"), DialOutcome.answered, true, some "hist",
   some 5, 9, true, true, StopOutcome.unexpectedTwirp⟩

/-- Stopping the recording reports it already stopped/failed. -/
def oStopAlready : Outcomes :=
  ⟨EgressOutcome.ok (some "EG3"), DialOutcome.answered, true, some "hist",
   none, 9, true, true, StopOutcome.alreadyStopped⟩

/-- The recording start fails. -/
def oEgressFail : Outcomes :=
  ⟨EgressOutcome.failed, DialOutcome.answered, true, some "hist",
   none, 9, true, true, StopOutcome.ok⟩

/-- C1 as stated is false: with a metadata payload lacking
`phone_number`, no error is raised and both backends are still called —
the recording-start request is made and the telephony backend is dialed
with the default destination "unknown". -/
theorem C1_counterexample :
    (dialInfoOf cfgNoPhone.metadata).phone_number = none
    ∧ Event.egressStartAttempt ∈ runJob cfgNoPhone oHappy
    ∧ Event.dialRequest "unknown" ∈ runJob cfgNoPhone oHappy := by
  refine ⟨rfl, ?_, ?_⟩ <;> decide

/-- C1 amended: when the job metadata does not contain `phone_number`,
no ConfigurationError is raised; the code substitutes the default
destination "unknown" and proceeds — the recording-start call (issued
before the metadata is even read) and the dial request both occur. -/
theorem C1_missing_phone_defaults_unknown (cfg : Config) (o : Outcomes)
    (h : (dialInfoOf cfg.metadata).phone_number = none) :
    phoneOf cfg = "unknown"
    ∧ Event.egressStartAttempt ∈ runJob cfg o
    ∧ Event.dialRequest "unknown" ∈ runJob cfg o := by
  have hp : phoneOf cfg = "unknown" := by rw [phoneOf, h]; rfl
  refine ⟨hp, ?_, ?_⟩
  · rw [runJob_eq, entrypointTrace, preDial]
    simp
  · rw [runJob_eq, entrypointTrace, ← hp]
    simp

/-- C1 amended claim instantiated at a concrete metadata payload lacking
`phone_number`. -/
theorem C1_witness :
    phoneOf cfgNoPhone = "unknown"
    ∧ Event.egressStartAttempt ∈ runJob cfgNoPhone oHappy
    ∧ Event.dialRequest "unknown" ∈ runJob cfgNoPhone oHappy :=
  C1_missing_phone_defaults_unknown cfgNoPhone oHappy rfl

/-- C2 as stated is false: in a fully completed call whose history read
succeeded but whose database connection failed, the shutdown hook still
ran, yet zero rows were written to the store. -/
theorem C2_counterexample :
    oDbFail.historyOk = some "hist"
    ∧ hookCount (runJob cfgMain oDbFail) = 1
    ∧ writtenRows (runJob cfgMain oDbFail) = [] := by
  refine ⟨rfl, ?_, ?_⟩ <;> decide

/-- C2 amended: at most one row is ever written per call session;
exactly one row — the assembled transcript row — is written whenever the
database connection and the insert succeed; and when reading the history
fails, the assembled row carries the placeholder error payload in place
of the transcript rather than being dropped. -/
theorem C2_row_count (cfg : Config) (o : Outcomes) :
    (writtenRows (runJob cfg o)).length ≤ 1
    ∧ (o.dbConnect = true → o.dbInsert = true →
        writtenRows (runJob cfg o) = [rowOf cfg o])
    ∧ (o.historyOk = none →
        (rowOf cfg o).transcript = Transcript.placeholder "failed to read history") := by
  refine ⟨?_, ?_, ?_⟩
  · rw [writtenRows_runJob]
    by_cases h : (o.dbConnect && o.dbInsert) = true <;> simp [h]
  · intro h1 h2
    rw [writtenRows_runJob, h1, h2]
    rfl
  · intro h
    simp [rowOf, transcriptOf, h]

/-- C2 amended claim instantiated: history read fails, connection and
insert succeed — exactly one row, with the placeholder transcript. -/
theorem C2_witness :
    (writtenRows (runJob cfgMain oHistFail)).length ≤ 1
    ∧ writtenRows (runJob cfgMain oHistFail) = [rowOf cfgMain oHistFail]
    ∧ (rowOf cfgMain oHistFail).transcript
        = Transcript.placeholder "failed to read history" := by
  obtain ⟨h1, h2, h3⟩ := C2_row_count cfgMain oHistFail
  exact ⟨h1, h2 rfl rfl, h3 rfl⟩

/-- C4: the DTMF unit emits exactly one tone-then-gap block per
recognized symbol, in input order, and nothing (no tone, no gap) for an
unrecognized symbol; the table maps "0"-"9" to 0-9, "*" to 10 and "#"
to 11, injectively, and any other symbol maps to nothing (skipped, not
an error). -/
theorem C4_dtmf_unit (pin : List Char) :
    sendPinEvents pin
      = (pin.filterMap fun d => (dtmfMap d).map fun c => (c, d)).flatMap
          (fun p => [Event.dtmfTone p.1 p.2, Event.toneGap])
    ∧ toneEvents (sendPinEvents pin)
      = pin.filterMap (fun d => (dtmfMap d).map fun c => (c, d))
    ∧ dtmfTable.map Prod.fst = "0123456789*#".toList
    ∧ dtmfTable.map Prod.snd = [0, 1, 2, 3, 4, 5, 6, 7, 8, 9, 10, 11]
    ∧ (dtmfTable.map Prod.snd).Nodup
    ∧ (∀ c : Char, c ∉ dtmfTable.map Prod.fst → dtmfMap c = none) := by
  refine ⟨sendPin_eq_blocks pin, toneEvents_sendPin pin, by decide, by decide,
    by decide, ?_⟩
  intro c hc
  cases h : dtmfMap c with
  | none => rfl
  | some v => exact absurd (lookup_mem_keys h) hc

/-- The API-client close event is in every job trace. -/
lemma closeClient_mem_runJob (cfg : Config) (o : Outcomes) :
    Event.closeClient ∈ runJob cfg o := by
  rw [runJob_eq]
  apply List.mem_append.mpr
  apply Or.inr
  rw [shutdownTrace]
  apply List.mem_cons_of_mem
  apply List.mem_append.mpr
  exact Or.inr (List.mem_singleton.mpr rfl)

/-- When the connection succeeded, the cursor/connection release event
is in the shutdown trace. -/
lemma connReleased_mem_shutdown (cfg : Config) (o : Outcomes)
    (hc : o.dbConnect = true) :
    Event.connReleased ∈ shutdownTrace cfg o := by
  rw [shutdownTrace]
  apply List.mem_cons_of_mem
  apply List.mem_append.mpr
  apply Or.inl
  apply List.mem_append.mpr
  apply Or.inr
  rw [if_pos hc]
  apply List.mem_append.mpr
  apply Or.inl
  apply List.mem_append.mpr
  exact Or.inr (List.mem_singleton.mpr rfl)

/-- When the connection succeeded, stop-block events are in the
shutdown trace. -/
lemma mem_shutdown_of_mem_stop (cfg : Config) (o : Outcomes)
    (hc : o.dbConnect = true) {e : Event} (he : e ∈ stopEvents o) :
    e ∈ shutdownTrace cfg o := by
  rw [shutdownTrace]
  apply List.mem_cons_of_mem
  apply List.mem_append.mpr
  apply Or.inl
  apply List.mem_append.mpr
  apply Or.inr
  rw [if_pos hc]
  apply List.mem_append.mpr
  exact Or.inr he

/-- Shutdown events are in the whole job trace. -/
lemma mem_runJob_of_mem_shutdown (cfg : Config) (o : Outcomes) {e : Event}
    (he : e ∈ shutdownTrace cfg o) : e ∈ runJob cfg o := by
  rw [runJob_eq]
  exact List.mem_append.mpr (Or.inr he)

/-- C3 as stated is false: with a recording id obtained but the
database connection failing, the shutdown hook runs yet `stop_egress`
is never invoked — the early return on connection failure skips
recording teardown (only the API-client close still runs). -/
theorem C3_counterexample :
    egressIdOf oDbFail = some "EG1"
    ∧ hookCount (runJob cfgMain oDbFail) = 1
    ∧ stopCalls (runJob cfgMain oDbFail) = []
    ∧ Event.closeClient ∈ runJob cfgMain oDbFail := by
  refine ⟨rfl, ?_, ?_, ?_⟩ <;> decide

/-- C3 amended: when the database connection succeeds, an insert
failure does not prevent recording teardown — the stop call is still
made for any truthy recording id, and the connection is released; but
when the connection fails, the stop call is skipped entirely; the API
client is closed on every path. -/
theorem C3_db_failure_vs_teardown (cfg : Config) (o : Outcomes) :
    (o.dbConnect = true → optTruthy (egressIdOf o) = true →
        stopCalls (runJob cfg o) = [(egressIdOf o).getD ""])
    ∧ (o.dbConnect = true → Event.connReleased ∈ runJob cfg o)
    ∧ (o.dbConnect = false → stopCalls (runJob cfg o) = [])
    ∧ Event.closeClient ∈ runJob cfg o := by
  refine ⟨?_, ?_, ?_, closeClient_mem_runJob cfg o⟩
  · intro hc ht
    rw [stopCalls_runJob, if_pos hc, stopCalls_stopEvents]
    cases hid : egressIdOf o with
    | none => rw [hid] at ht; exact absurd ht (by decide)
    | some s =>
        rw [hid] at ht
        have hs : ¬s = "" := of_decide_eq_true ht
        simp [hs]
  · intro hc
    exact mem_runJob_of_mem_shutdown cfg o (connReleased_mem_shutdown cfg o hc)
  · intro hc0
    rw [stopCalls_runJob, hc0]
    rfl

/-- C3 amended claim instantiated: insert fails but the connection
succeeded — the stop call and the releases still happen. -/
theorem C3_witness :
    stopCalls (runJob cfgMain oInsFail) = ["EG1"]
    ∧ Event.connReleased ∈ runJob cfgMain oInsFail
    ∧ Event.closeClient ∈ runJob cfgMain oInsFail := by
  obtain ⟨h1, h2, h3, h4⟩ := C3_db_failure_vs_teardown cfgMain oInsFail
  exact ⟨h1 rfl (by decide), h2 rfl, h4⟩

/-- C5: on a structured dial failure the coordinator logs the error and
never reaches participant-join waiting or DTMF; the shutdown hook still
runs exactly once, and every row it submits for archiving has its
ended-at stamp set while its participant field is null. -/
theorem C5_dial_failure (cfg : Config) (o : Outcomes)
    (h : o.dial = DialOutcome.twirpError) :
    Event.logDialTwirpError ∈ runJob cfg o
    ∧ (∀ e ∈ runJob cfg o, Event.isJoined e = false)
    ∧ (∀ e ∈ runJob cfg o, Event.isTone e = false)
    ∧ hookCount (runJob cfg o) = 1
    ∧ (∀ r ∈ submittedRows (runJob cfg o),
        r.ended_at = some o.now ∧ r.participant_identity = none
        ∧ r.egress_id = egressIdOf o)
    ∧ (o.dbConnect = true → submittedRows (runJob cfg o) = [rowOf cfg o]) := by
  have hpost : postDial cfg o = [Event.logDialTwirpError] := by
    rw [postDial, h]
  have hrow : (rowOf cfg o).participant_identity = none := by
    simp [rowOf, participantOf, h]
  refine ⟨?_, ?_, ?_, hookCount_runJob cfg o, ?_, ?_⟩
  · rw [runJob_eq, entrypointTrace, hpost]
    simp
  · apply forall_runJob_false
    · exact forall_preDial_false _ o rfl rfl (fun id => rfl) rfl rfl rfl
    · rfl
    · rw [hpost]
      intro e he
      simp at he
      subst he
      rfl
    · rfl
    · exact forall_shutdown_false _ cfg o rfl rfl rfl (fun r => rfl)
        (fun r => rfl) rfl rfl (fun s => rfl) rfl rfl rfl rfl rfl
  · apply forall_runJob_false
    · exact forall_preDial_false _ o rfl rfl (fun id => rfl) rfl rfl rfl
    · rfl
    · exact no_tone_postDial cfg o
        (Or.inl (by rw [h]; exact fun hcon => DialOutcome.noConfusion hcon))
    · rfl
    · exact forall_shutdown_false _ cfg o rfl rfl rfl (fun r => rfl)
        (fun r => rfl) rfl rfl (fun s => rfl) rfl rfl rfl rfl rfl
  · intro r hr
    rw [submittedRows_runJob] at hr
    by_cases hc : o.dbConnect = true
    · rw [if_pos hc] at hr
      simp at hr
      subst hr
      exact ⟨rfl, hrow, rfl⟩
    · rw [if_neg hc] at hr
      exact absurd hr (List.not_mem_nil r)
  · intro hc
    rw [submittedRows_runJob, hc]
    rfl

/-- C5 instantiated at a concrete dial failure. -/
theorem C5_witness :
    Event.logDialTwirpError ∈ runJob cfgMain oDialFail
    ∧ (∀ e ∈ runJob cfgMain oDialFail, Event.isJoined e = false)
    ∧ (∀ e ∈ runJob cfgMain oDialFail, Event.isTone e = false)
    ∧ hookCount (runJob cfgMain oDialFail) = 1
    ∧ (∀ r ∈ submittedRows (runJob cfgMain oDialFail),
        r.ended_at = some oDialFail.now ∧ r.participant_identity = none
        ∧ r.egress_id = egressIdOf oDialFail)
    ∧ (oDialFail.dbConnect = true →
        submittedRows (runJob cfgMain oDialFail) = [rowOf cfgMain oDialFail]) :=
  C5_dial_failure cfgMain oDialFail rfl

/-- C6: in every execution, recording is requested before the dial
request, the session-start task is launched before the dial request,
DTMF tones come only after the participant joined and only after the
settle delay, and the shutdown hook runs after the session ended and at
most once. -/
theorem C6_lifecycle_order (cfg : Config) (o : Outcomes) :
    Precedes Event.isEgressStartAttempt Event.isDialRequest (runJob cfg o)
    ∧ Precedes Event.isSessionLaunched Event.isDialRequest (runJob cfg o)
    ∧ Precedes Event.isJoined Event.isTone (runJob cfg o)
    ∧ Precedes Event.isSettle Event.isTone (runJob cfg o)
    ∧ Precedes Event.isSessionEnded Event.isHookStart (runJob cfg o)
    ∧ hookCount (runJob cfg o) ≤ 1 :=
  ⟨precedes_egress_dial cfg o, precedes_launch_dial cfg o,
   precedes_joined_tone cfg o, precedes_settle_tone cfg o,
   precedes_end_hook cfg o, le_of_eq (hookCount_runJob cfg o)⟩

/-- C7: when the recording start fails, the failure is logged, the
egress id is none, and the dial request is still issued. -/
theorem C7_recording_failure (cfg : Config) (o : Outcomes)
    (h : o.egress = EgressOutcome.failed) :
    egressIdOf o = none
    ∧ Event.logEgressFailure ∈ runJob cfg o
    ∧ Event.dialRequest (phoneOf cfg) ∈ runJob cfg o := by
  refine ⟨by simp [egressIdOf, h], ?_, ?_⟩
  · rw [runJob_eq, entrypointTrace, preDial, h]
    simp
  · rw [runJob_eq, entrypointTrace]
    simp

/-- C7 instantiated at a concrete recording failure. -/
theorem C7_witness :
    egressIdOf oEgressFail = none
    ∧ Event.logEgressFailure ∈ runJob cfgMain oEgressFail
    ∧ Event.dialRequest (phoneOf cfgMain) ∈ runJob cfgMain oEgressFail :=
  C7_recording_failure cfgMain oEgressFail rfl

/-- C8 as stated is false on two counts: an unexpected error while
stopping the recording is only logged as a warning — the hook still
runs to completion (ending with the client close), nothing is
re-raised; and with a recording id obtained but the database connection
failing, the stop call is not made at all. -/
theorem C8_counterexample :
    (Event.logStopUnexpectedTwirp ∈ runJob cfgMain oStopTwirp
     ∧ (runJob cfgMain oStopTwirp).getLast? = some Event.closeClient
     ∧ stopCalls (runJob cfgMain oStopTwirp) = ["EG2"])
    ∧ (optTruthy (egressIdOf oDbFail) = true
       ∧ stopCalls (runJob cfgMain oDbFail) = []) := by
  refine ⟨⟨?_, ?_, ?_⟩, ?_, ?_⟩ <;> decide

/-- C8 amended: `stop_egress` is invoked exactly once at shutdown when
a truthy recording id was obtained and the database connection
succeeded (and never otherwise); an already-stopped/failed response is
treated as success, and a genuinely unexpected error is logged, not
re-raised — the hook still runs to completion. -/
theorem C8_stop_tolerant (cfg : Config) (o : Outcomes) :
    (optTruthy (egressIdOf o) = false → stopCalls (runJob cfg o) = [])
    ∧ (o.dbConnect = false → stopCalls (runJob cfg o) = [])
    ∧ (o.dbConnect = true → optTruthy (egressIdOf o) = true →
        stopCalls (runJob cfg o) = [(egressIdOf o).getD ""]
        ∧ (o.stop = StopOutcome.alreadyStopped →
            Event.stopIgnoredAlreadyFailed ∈ runJob cfg o)
        ∧ (o.stop = StopOutcome.unexpectedTwirp →
            Event.logStopUnexpectedTwirp ∈ runJob cfg o)
        ∧ (runJob cfg o).getLast? = some Event.closeClient) := by
  refine ⟨?_, ?_, ?_⟩
  · intro ht
    rw [stopCalls_runJob]
    by_cases hc : o.dbConnect = true
    · rw [if_pos hc, stopCalls_stopEvents]
      cases hid : egressIdOf o with
      | none => rfl
      | some s =>
          rw [hid] at ht
          have hs : s = "" := not_not.mp (of_decide_eq_false ht)
          simp [hs]
    · rw [if_neg hc]
  · intro hc0
    rw [stopCalls_runJob, hc0]
    rfl
  · intro hc ht
    cases hid : egressIdOf o with
    | none => rw [hid] at ht; exact absurd ht (by decide)
    | some s =>
        rw [hid] at ht
        have hs : ¬s = "" := of_decide_eq_true ht
        refine ⟨?_, ?_, ?_, runJob_getLast cfg o⟩
        · rw [stopCalls_runJob, if_pos hc, stopCalls_stopEvents, hid]
          simp [hs]
        · intro hst
          apply mem_runJob_of_mem_shutdown
          apply mem_shutdown_of_mem_stop cfg o hc
          simp [stopEvents, hid, hs, hst]
        · intro hst
          apply mem_runJob_of_mem_shutdown
          apply mem_shutdown_of_mem_stop cfg o hc
          simp [stopEvents, hid, hs, hst]

/-- C8 amended claim instantiated: an already-stopped response is
ignored and the hook completes, with exactly one stop call. -/
theorem C8_witness :
    stopCalls (runJob cfgMain oStopAlready) = ["EG3"]
    ∧ Event.stopIgnoredAlreadyFailed ∈ runJob cfgMain oStopAlready
    ∧ (runJob cfgMain oStopAlready).getLast? = some Event.closeClient := by
  obtain ⟨h1, h2, h3⟩ := C8_stop_tolerant cfgMain oStopAlready
  obtain ⟨ha, hb, hcc, hd⟩ := h3 rfl (by decide)
  exact ⟨ha, hb rfl, hd⟩

/-- C9: with `meeting_pin` absent from the metadata, the default PIN
"0000#" is used, producing exactly five tones: four with code 0 and one
with code 11. -/
theorem C9_default_pin (cfg : Config) (o : Outcomes)
    (h : (dialInfoOf cfg.metadata).meeting_pin = none) :
    pinUsed cfg = "0000#"
    ∧ toneEvents (sendPinEvents (pinUsed cfg).toList)
        = [(0, '0'), (0, '0'), (0, '0'), (0, '0'), (11, '#')]
    ∧ (toneEvents (sendPinEvents (pinUsed cfg).toList)).length = 5
    ∧ (o.dial = DialOutcome.answered → o.joinOk = true →
        toneEvents (runJob cfg o)
          = [(0, '0'), (0, '0'), (0, '0'), (0, '0'), (11, '#')]) := by
  have hp : pinUsed cfg = "0000#" := by rw [pinUsed, h]
  refine ⟨hp, ?_, ?_, ?_⟩
  · rw [hp]; decide
  · rw [hp]; decide
  · intro h1 h2
    rw [toneEvents_runJob, if_pos ⟨h1, h2⟩, hp]
    decide

/-- C9 instantiated at concrete metadata lacking `meeting_pin`. -/
theorem C9_witness :
    pinUsed cfgNoPin = "0000#"
    ∧ toneEvents (sendPinEvents (pinUsed cfgNoPin).toList)
        = [(0, '0'), (0, '0'), (0, '0'), (0, '0'), (11, '#')]
    ∧ (toneEvents (sendPinEvents (pinUsed cfgNoPin).toList)).length = 5
    ∧ toneEvents (runJob cfgNoPin oHappy)
        = [(0, '0'), (0, '0'), (0, '0'), (0, '0'), (11, '#')] := by
  obtain ⟨h1, h2, h3, h4⟩ := C9_default_pin cfgNoPin oHappy rfl
  exact ⟨h1, h2, h3, h4 rfl rfl⟩

/-- C10: the default-PIN selection is a truthiness test — a present but
empty `meeting_pin` behaves exactly like an absent one: the default
"0000#" is used and five tones are produced rather than zero. -/
theorem C10_empty_pin (cfg : Config) (o : Outcomes)
    (h : (dialInfoOf cfg.metadata).meeting_pin = some "") :
    pinUsed cfg = "0000#"
    ∧ toneEvents (sendPinEvents (pinUsed cfg).toList)
        = [(0, '0'), (0, '0'), (0, '0'), (0, '0'), (11, '#')]
    ∧ (toneEvents (sendPinEvents (pinUsed cfg).toList)).length = 5
    ∧ (o.dial = DialOutcome.answered → o.joinOk = true →
        toneEvents (runJob cfg o)
          = [(0, '0'), (0, '0'), (0, '0'), (0, '0'), (11, '#')]) := by
  have hp : pinUsed cfg = "0000#" := by rw [pinUsed, h]; rfl
  refine ⟨hp, ?_, ?_, ?_⟩
  · rw [hp]; decide
  · rw [hp]; decide
  · intro h1 h2
    rw [toneEvents_runJob, if_pos ⟨h1, h2⟩, hp]
    decide

/-- C10 instantiated at concrete metadata with an empty pin. -/
theorem C10_witness :
    pinUsed cfgEmptyPin = "0000#"
    ∧ toneEvents (sendPinEvents (pinUsed cfgEmptyPin).toList)
        = [(0, '0'), (0, '0'), (0, '0'), (0, '0'), (11, '#')]
    ∧ (toneEvents (sendPinEvents (pinUsed cfgEmptyPin).toList)).length = 5
    ∧ toneEvents (runJob cfgEmptyPin oHappy)
        = [(0, '0'), (0, '0'), (0, '0'), (0, '0'), (11, '#')] := by
  obtain ⟨h1, h2, h3, h4⟩ := C10_empty_pin cfgEmptyPin oHappy rfl
  exact ⟨h1, h2, h3, h4 rfl rfl⟩

end VoiceAgent
